import Mathlib

/-!
# TVK Media Player — verification of the decode/effects core

Shallow embedding of the playback engine of the TVK media player:
the GPU frame-effects processor (`video_effects.h` / `video_effects.cpp`),
the video decode engine (`video_decoder.cpp`) and the audio decode &
playback engine (`audio_decoder.cpp`).

Modelling conventions:
* C `float`/`double` values are modelled as `ℚ`; a C cast `(int)`/`(int64_t)`
  of a floating value is truncation toward zero (`truncQ`).
* FFmpeg containers are modelled as finite packet lists with a demux read
  cursor; `av_seek_frame` with `AVSEEK_FLAG_BACKWARD` positions the cursor at
  the last keyframe of the stream whose pts does not exceed the target.
* The codec is modelled one-packet-in / at-most-one-frame-out: a packet either
  fails `avcodec_send_packet` (`corrupt`), yields no frame yet
  (`yieldsFrame = false`, the EAGAIN case) or yields exactly one frame.
* OpenAL device state is carried in the engine state: the source object, its
  play state and the number of queued buffers (`AL_BUFFERS_QUEUED`).
* `lockCount` counts acquisitions of `_decodeMutex` and `framesDecoded`
  counts frames materialised by `DecodeNextFrame`; both are event-counting
  instrumentation, never read by the modelled code itself.
-/

namespace TVKMedia

/-- C cast of a floating value to an integer: truncation toward zero. -/
def truncQ (q : ℚ) : Int := if 0 ≤ q then ⌊q⌋ else ⌈q⌉

/-! ## GPU frame effects processor (`video_effects.h`, `video_effects.cpp`)

The three effect-parameter groups, with the exact fields and default values
of the C++ structs. -/

structure ColorAdjustments where
  brightness : ℚ := 0
  contrast : ℚ := 1
  gamma : ℚ := 1
  hue : ℚ := 0
  saturation : ℚ := 1
  temperature : ℚ := 0
  tint : ℚ := 0
  exposure : ℚ := 0
  shadows : ℚ := 0
  highlights : ℚ := 0
deriving DecidableEq, Repr

/-- `ColorAdjustments::IsDefault`. -/
def ColorAdjustments.IsDefault (c : ColorAdjustments) : Bool :=
  decide (c.brightness = 0 ∧ c.contrast = 1 ∧ c.gamma = 1 ∧ c.hue = 0 ∧
    c.saturation = 1 ∧ c.temperature = 0 ∧ c.tint = 0 ∧ c.exposure = 0 ∧
    c.shadows = 0 ∧ c.highlights = 0)

/-- `ColorAdjustments::Reset`: assigns every field its default value. -/
def ColorAdjustments.Reset (_ : ColorAdjustments) : ColorAdjustments :=
  { brightness := 0, contrast := 1, gamma := 1, hue := 0, saturation := 1
    temperature := 0, tint := 0, exposure := 0, shadows := 0, highlights := 0 }

inductive FilterType where
  | None | Grayscale | Sepia | Invert | Posterize | Solarize
  | Threshold | Sharpen | EdgeDetect
deriving DecidableEq, Repr

structure FilterSettings where
  type : FilterType := FilterType.None
  strength : ℚ := 1
  threshold : ℚ := 1/2
  levels : Int := 4
deriving DecidableEq, Repr

/-- `FilterSettings::IsDefault`: only the filter type is inspected. -/
def FilterSettings.IsDefault (f : FilterSettings) : Bool :=
  decide (f.type = FilterType.None)

/-- `FilterSettings::Reset`. -/
def FilterSettings.Reset (_ : FilterSettings) : FilterSettings :=
  { type := FilterType.None, strength := 1, threshold := 1/2, levels := 4 }

structure PostProcessSettings where
  vignette : ℚ := 0
  vignetteSize : ℚ := 1/2
  filmGrain : ℚ := 0
  chromaticAberration : ℚ := 0
  scanlines : ℚ := 0
  vintageEnabled : Bool := false
  vintageStrength : ℚ := 1/2
  bloom : ℚ := 0
  bloomThreshold : ℚ := 4/5
  bloomRadius : ℚ := 4
deriving DecidableEq, Repr

/-- `PostProcessSettings::IsDefault`: `vignetteSize`, `vintageStrength`,
`bloomThreshold` and `bloomRadius` are not inspected. -/
def PostProcessSettings.IsDefault (p : PostProcessSettings) : Bool :=
  decide (p.vignette = 0 ∧ p.filmGrain = 0 ∧ p.chromaticAberration = 0 ∧
    p.scanlines = 0 ∧ p.vintageEnabled = false ∧ p.bloom = 0)

/-- `PostProcessSettings::Reset`. -/
def PostProcessSettings.Reset (_ : PostProcessSettings) : PostProcessSettings :=
  { vignette := 0, vignetteSize := 1/2, filmGrain := 0, chromaticAberration := 0
    scanlines := 0, vintageEnabled := false, vintageStrength := 1/2
    bloom := 0, bloomThreshold := 4/5, bloomRadius := 4 }

/-- A video frame image on the GPU: dimensions plus an abstract content id
(standing for the full RGBA byte content). -/
structure EffImage where
  width : Nat
  height : Nat
  content : Nat
deriving DecidableEq, Repr

/-- The mutable state of a `VideoEffects` instance: the initialisation flag,
the three parameter groups, the frame counter used to vary time-dependent
effects, and the staging image (its dimensions when allocated). -/
structure VideoEffectsState where
  initialized : Bool
  colorAdjust : ColorAdjustments
  filter : FilterSettings
  postProcess : PostProcessSettings
  frameCounter : Nat
  staging : Option (Nat × Nat)
deriving DecidableEq, Repr

namespace VideoEffects

/-- `VideoEffects::HasActiveEffects`. -/
def HasActiveEffects (s : VideoEffectsState) : Bool :=
  !s.colorAdjust.IsDefault || !s.filter.IsDefault || !s.postProcess.IsDefault

/-- `VideoEffects::ResetAll`. -/
def ResetAll (s : VideoEffectsState) : VideoEffectsState :=
  { s with colorAdjust := s.colorAdjust.Reset, filter := s.filter.Reset
           postProcess := s.postProcess.Reset }

/-- Abstract model of the compute-shader pass: the output content is some
function of the parameters, the frame counter and the input content.  The
shader's pixel-level semantics are outside the scope of the claims; all that
matters here is that the pass runs only when it is dispatched. -/
def shaderOutput (s : VideoEffectsState) (im : EffImage) : Nat :=
  im.content + 1 + s.frameCounter

/-- `VideoEffects::ProcessFrame`.  Returns the new processor state, the
(possibly rewritten) image, and whether GPU work was dispatched.
The early return fires when the processor is uninitialised, the texture is
null, or no effect group differs from its default; it precedes the frame
counter increment and the staging-image maintenance. -/
def ProcessFrame (s : VideoEffectsState) (img : Option EffImage) :
    VideoEffectsState × Option EffImage × Bool :=
  match img with
  | none => (s, none, false)
  | some im =>
    if s.initialized = false ∨ HasActiveEffects s = false then (s, some im, false)
    else
      let s1 := { s with frameCounter := s.frameCounter + 1 }
      -- CreateStagingImage: reused when the dimensions match, else reallocated
      let s2 := if s1.staging = some (im.width, im.height) then s1
                else { s1 with staging := some (im.width, im.height) }
      (s2, some { im with content := shaderOutput s2 im }, true)

end VideoEffects

/-- **C7** For each of the three effect-parameter groups and for every starting
field assignment, calling `Reset()` yields a state in which `IsDefault()`
returns true. -/
theorem reset_isDefault_roundTrip :
    (∀ c : ColorAdjustments, c.Reset.IsDefault = true) ∧
    (∀ f : FilterSettings, f.Reset.IsDefault = true) ∧
    (∀ p : PostProcessSettings, p.Reset.IsDefault = true) := by
  refine ⟨fun c => ?_, fun f => ?_, fun p => ?_⟩ <;> rfl

/-- **C3** For every initialised `VideoEffects` instance and every non-null
image whose three effect-parameter groups are all at their default values,
`ProcessFrame` returns without dispatching any GPU work and leaves the image
content, the staging image and the frame counter unchanged. -/
theorem processFrame_default_noop (s : VideoEffectsState) (im : EffImage)
    (_hinit : s.initialized = true)
    (hc : s.colorAdjust.IsDefault = true)
    (hf : s.filter.IsDefault = true)
    (hp : s.postProcess.IsDefault = true) :
    VideoEffects.ProcessFrame s (some im) = (s, some im, false) := by
  have hact : VideoEffects.HasActiveEffects s = false := by
    simp [VideoEffects.HasActiveEffects, hc, hf, hp]
  simp [VideoEffects.ProcessFrame, hact]

/-- Witness for C3: a concrete initialised state with all parameter groups at
default, on a concrete image. -/
theorem processFrame_default_noop_witness :
    VideoEffects.ProcessFrame
        { initialized := true, colorAdjust := {}, filter := {}, postProcess := {}
          frameCounter := 7, staging := some (640, 480) }
        (some { width := 640, height := 480, content := 12345 }) =
      ({ initialized := true, colorAdjust := {}, filter := {}, postProcess := {}
         frameCounter := 7, staging := some (640, 480) },
       some { width := 640, height := 480, content := 12345 }, false) :=
  processFrame_default_noop _ _ rfl rfl rfl rfl

/-! ## Video decode engine (`video_decoder.cpp`)

The container is a finite list of packets.  Each packet carries the stream it
belongs to, its presentation timestamp (`AV_NOPTS_VALUE` is `none`), whether
it is a keyframe, and the behaviour of the codec on it: `corrupt` means
`avcodec_send_packet` fails, `yieldsFrame = false` means `avcodec_receive_frame`
reports EAGAIN.  `hwSurface` marks that the decoded frame lands on a hardware
surface (`frame->format == _hwPixelFormat`) and `transferOk` whether
`av_hwframe_transfer_data` succeeds; `swFormat` is the pixel format of the
transferred frame.  `payload` stands for the frame's pixel content. -/

structure VPacket where
  streamIndex : Int
  pts : Option Int
  keyframe : Bool
  corrupt : Bool
  yieldsFrame : Bool
  hwSurface : Bool
  transferOk : Bool
  srcFormat : Int
  swFormat : Int
  srcWidth : Int
  srcHeight : Int
  payload : Nat
deriving DecidableEq, Repr

structure VMedia where
  packets : List VPacket
deriving DecidableEq, Repr

/-- The `VideoFrame` struct: its `data` vector is abstracted to the payload
id produced by `sws_scale`. -/
structure VideoFrame where
  width : Int
  height : Int
  timestamp : ℚ
  payload : Nat
deriving DecidableEq, Repr

/-- The mutable state of a `VideoDecoder`.  `demuxPos` is the read cursor of
the (single, shared) `AVFormatContext`; `sws` is the cached conversion
context, keyed by the source format/width/height it was built for;
`timeBase` is `av_q2d(_videoStream->time_base)`.  `framesDecoded` counts
`DecodeNextFrame` successes (instrumentation only). -/
structure VDState where
  formatOpen : Bool
  hasStream : Bool
  codecOpen : Bool
  videoStreamIndex : Int
  demuxPos : Nat
  width : Int
  height : Int
  timeBase : ℚ
  currentTime : ℚ
  hwAccel : Bool
  sws : Option (Int × Int × Int)
  framesDecoded : Nat
deriving DecidableEq, Repr

/-- `av_seek_frame(fmt, streamIndex, ts, AVSEEK_FLAG_BACKWARD)`: position the
demux cursor at the last keyframe of the stream whose pts is at most `ts`;
fails (returns `none`) when no such packet exists. -/
def avSeekFrame (m : VMedia) (streamIndex : Int) (ts : Int) : Option Nat :=
  ((List.range m.packets.length).filter fun i =>
    match m.packets[i]? with
    | some p =>
        p.streamIndex == streamIndex && p.keyframe &&
          (match p.pts with | some v => decide (v ≤ ts) | none => false)
    | none => false).getLast?

namespace VideoDecoder

/-- The packet-reading loop of `VideoDecoder::DecodeNextFrame`.  The fuel is
the number of packets left to read; each iteration consumes exactly one
packet, so `m.packets.length - s.demuxPos` fuel is exact and the fuel-0 case
coincides with the end-of-stream read failure. -/
def decodeLoop (m : VMedia) : Nat → VDState → Option VideoFrame × VDState
  | 0, s => (none, s)
  | fuel+1, s =>
    match m.packets[s.demuxPos]? with
    | none => (none, s)                 -- av_read_frame returned an error
    | some pkt =>
      let s1 := { s with demuxPos := s.demuxPos + 1 }
      if pkt.streamIndex ≠ s1.videoStreamIndex then decodeLoop m fuel s1
      else if pkt.corrupt then (none, s1)     -- avcodec_send_packet failed
      else if pkt.yieldsFrame = false then decodeLoop m fuel s1  -- EAGAIN
      else
        let hwPath := s1.hwAccel && pkt.hwSurface
        if hwPath && pkt.transferOk = false then decodeLoop m fuel s1
        else
          let (ts, s2) :=
            match pkt.pts with
            | some p => ((p : ℚ) * s1.timeBase,
                         { s1 with currentTime := (p : ℚ) * s1.timeBase })
            | none => (s1.currentTime, s1)
          let srcFmt := if hwPath then pkt.swFormat else pkt.srcFormat
          let key := (srcFmt, pkt.srcWidth, pkt.srcHeight)
          let s3 := if s2.sws = some key then s2 else { s2 with sws := some key }
          (some { width := s3.width, height := s3.height, timestamp := ts
                  payload := pkt.payload },
           { s3 with framesDecoded := s3.framesDecoded + 1 })

/-- `VideoDecoder::DecodeNextFrame`.  `sws_getContext` is modelled as
succeeding on the formats that occur (its failure branch is absent). -/
def DecodeNextFrame (m : VMedia) (s : VDState) : Option VideoFrame × VDState :=
  if s.formatOpen = false ∨ s.codecOpen = false then (none, s)
  else decodeLoop m (m.packets.length - s.demuxPos) s

/-- `VideoDecoder::Seek`.  On `av_seek_frame` failure nothing has been
mutated; on success the decoder is flushed (no cross-packet codec state is
carried in this model), the current-time cursor is set to the requested time
and the cached conversion context is invalidated. -/
def Seek (m : VMedia) (s : VDState) (t : ℚ) : Bool × VDState :=
  if s.formatOpen = false ∨ s.hasStream = false then (false, s)
  else
    match avSeekFrame m s.videoStreamIndex (truncQ (t / s.timeBase)) with
    | none => (false, s)
    | some pos => (true, { s with demuxPos := pos, currentTime := t, sws := none })

/-- Thumbnail dimension computation of `VideoDecoder::GetThumbnailAt`:
fit the stream's aspect ratio `width/height` into the requested box. -/
def thumbDims (w h maxWidth maxHeight : Int) : Int × Int :=
  if maxHeight < truncQ ((maxWidth : ℚ) / ((w : ℚ) / (h : ℚ))) then
    (truncQ ((maxHeight : ℚ) * ((w : ℚ) / (h : ℚ))), maxHeight)
  else (maxWidth, truncQ ((maxWidth : ℚ) / ((w : ℚ) / (h : ℚ))))

/-- The bounded read loop of `GetThumbnailAt`: up to `fuel` packet reads
(50 in the code, counted for any stream), stopping at the first packet of
the video stream that the codec accepts and turns into a frame, or at a read
error.  The temporary frame/packet objects are call-scoped, but the demux
cursor consumed by the reads is the engine's shared one. -/
def thumbLoop (m : VMedia) : Nat → VDState → Option VPacket × VDState
  | 0, s => (none, s)
  | fuel+1, s =>
    match m.packets[s.demuxPos]? with
    | none => (none, s)
    | some pkt =>
      let s1 := { s with demuxPos := s.demuxPos + 1 }
      if pkt.streamIndex = s1.videoStreamIndex ∧ pkt.corrupt = false ∧
          pkt.yieldsFrame = true then (some pkt, s1)
      else thumbLoop m fuel s1

/-- `VideoDecoder::GetThumbnailAt`.  It seeks the shared format context and
flushes the shared codec context, then decodes into temporary objects.
A failed hardware transfer keeps the hardware frame as the scale source; the
dedicated thumbnail scale context is modelled as obtainable.  The output
timestamp is the requested time, not the decoded frame's pts. -/
def GetThumbnailAt (m : VMedia) (s : VDState) (t : ℚ) (maxWidth maxHeight : Int) :
    Option VideoFrame × VDState :=
  if s.formatOpen = false ∨ s.hasStream = false ∨ s.codecOpen = false then (none, s)
  else
    match avSeekFrame m s.videoStreamIndex (truncQ (t / s.timeBase)) with
    | none => (none, s)
    | some pos =>
      match thumbLoop m 50 { s with demuxPos := pos } with
      | (none, s2) => (none, s2)
      | (some pkt, s2) =>
        (some { width := (thumbDims s2.width s2.height maxWidth maxHeight).1
                height := (thumbDims s2.width s2.height maxWidth maxHeight).2
                timestamp := t, payload := pkt.payload }, s2)

end VideoDecoder

/-! ### Fixtures: a small concrete container and an opened decoder state -/

/-- A decodable keyframe video packet of stream `idx` with pts `p`. -/
def vpkt (idx : Int) (p : Int) (pay : Nat) : VPacket :=
  { streamIndex := idx, pts := some p, keyframe := true, corrupt := false
    yieldsFrame := true, hwSurface := false, transferOk := true
    srcFormat := 0, swFormat := 0, srcWidth := 4, srcHeight := 4, payload := pay }

/-- A container with two video keyframes, at pts 0 and pts 10. -/
def vmTwo : VMedia := ⟨[vpkt 0 0 100, vpkt 0 10 200]⟩

/-- An empty container (every read fails, every seek fails). -/
def vmEmpty : VMedia := ⟨[]⟩

/-- A freshly opened 4×4 video decoder state with a time base of 1 second
per unit, software decode path. -/
def vsOpen : VDState :=
  { formatOpen := true, hasStream := true, codecOpen := true, videoStreamIndex := 0
    demuxPos := 0, width := 4, height := 4, timeBase := 1, currentTime := 0
    hwAccel := false, sws := none, framesDecoded := 0 }

/-- **C5** For every open `VideoDecoder` and every target time `t`: if
`Seek(t)` returns false the engine's prior state is left intact (the whole
state, hence `GetCurrentTime`, openness and the cached conversion context,
is unchanged); if `Seek(t)` returns true then `GetCurrentTime` equals `t`,
the engine remains open and no frame has been decoded by the call itself. -/
theorem seek_preserves_or_sets_time (m : VMedia) (s : VDState) (t : ℚ)
    (hOpen : s.formatOpen = true) :
    ((VideoDecoder.Seek m s t).1 = false → (VideoDecoder.Seek m s t).2 = s) ∧
    ((VideoDecoder.Seek m s t).1 = true →
      (VideoDecoder.Seek m s t).2.currentTime = t ∧
      (VideoDecoder.Seek m s t).2.formatOpen = true ∧
      (VideoDecoder.Seek m s t).2.framesDecoded = s.framesDecoded) := by
  unfold VideoDecoder.Seek
  split
  · simp
  · split
    · simp
    · simp [hOpen]

/-- Witness for C5 at a concrete input: seeking an empty container fails and
leaves the opened state untouched. -/
theorem seek_preserves_or_sets_time_witness :
    (VideoDecoder.Seek vmEmpty vsOpen 5).2 = vsOpen :=
  (seek_preserves_or_sets_time vmEmpty vsOpen 5 rfl).1 rfl

/-- The thumbnail read loop moves only the demux cursor: every other field of
the decoder state is left exactly as it was. -/
theorem thumbLoop_only_demux (m : VMedia) :
    ∀ (n : Nat) (s : VDState),
      (VideoDecoder.thumbLoop m n s).2 =
        { s with demuxPos := (VideoDecoder.thumbLoop m n s).2.demuxPos } := by
  intro n
  induction n with
  | zero => intro s; rfl
  | succ k ih =>
    intro s
    unfold VideoDecoder.thumbLoop
    cases h : m.packets[s.demuxPos]? with
    | none => rfl
    | some pkt =>
      dsimp only
      split
      · rfl
      · exact ih _

/-- **C1 (amended)** `GetThumbnailAt` never changes the engine's current
timestamp: `GetCurrentTime`, the cached conversion context, the open state
and the count of frames decoded by `DecodeNextFrame` are all unchanged.
(The demux read cursor, by contrast, is shared and *is* moved — see the
counterexample below.) -/
theorem getThumbnailAt_preserves_time (m : VMedia) (s : VDState) (t : ℚ)
    (maxWidth maxHeight : Int) :
    (VideoDecoder.GetThumbnailAt m s t maxWidth maxHeight).2.currentTime = s.currentTime ∧
    (VideoDecoder.GetThumbnailAt m s t maxWidth maxHeight).2.sws = s.sws ∧
    (VideoDecoder.GetThumbnailAt m s t maxWidth maxHeight).2.formatOpen = s.formatOpen ∧
    (VideoDecoder.GetThumbnailAt m s t maxWidth maxHeight).2.framesDecoded =
      s.framesDecoded := by
  unfold VideoDecoder.GetThumbnailAt
  split
  · exact ⟨rfl, rfl, rfl, rfl⟩
  · split
    · exact ⟨rfl, rfl, rfl, rfl⟩
    · rename_i pos _
      have hl := thumbLoop_only_demux m 50 { s with demuxPos := pos }
      split
      · rename_i s2 heq
        have : s2 = (VideoDecoder.thumbLoop m 50 { s with demuxPos := pos }).2 := by
          rw [heq]
        subst this
        rw [hl]
        exact ⟨rfl, rfl, rfl, rfl⟩
      · rename_i pkt s2 heq
        have : s2 = (VideoDecoder.thumbLoop m 50 { s with demuxPos := pos }).2 := by
          rw [heq]
        subst this
        rw [hl]
        exact ⟨rfl, rfl, rfl, rfl⟩

/-- **C1 (counterexample)** On a concrete two-packet container, calling
`GetThumbnailAt` at time 10 before `DecodeNextFrame` changes the result of
that `DecodeNextFrame` (end of stream instead of the first frame): the
thumbnail path seeks the shared format context and consumes packets from the
shared demux cursor without restoring it. -/
theorem getThumbnailAt_perturbs_decode :
    (VideoDecoder.DecodeNextFrame vmTwo
        (VideoDecoder.GetThumbnailAt vmTwo vsOpen 10 16 16).2).1 ≠
      (VideoDecoder.DecodeNextFrame vmTwo vsOpen).1 := by
  have h1 : truncQ ((10 : ℚ) / vsOpen.timeBase) = 10 := by norm_num [truncQ, vsOpen]
  have h2 : avSeekFrame vmTwo vsOpen.videoStreamIndex
      (truncQ ((10 : ℚ) / vsOpen.timeBase)) = some 1 := by rw [h1]; decide
  have h3 : VideoDecoder.thumbLoop vmTwo 50 { vsOpen with demuxPos := 1 } =
      (some (vpkt 0 10 200), { vsOpen with demuxPos := 2 }) := rfl
  have hthumb : (VideoDecoder.GetThumbnailAt vmTwo vsOpen 10 16 16).2 =
      { vsOpen with demuxPos := 2 } := by
    unfold VideoDecoder.GetThumbnailAt
    rw [if_neg (by decide), h2]
    simp only [h3]
  rw [hthumb]
  have hafter : (VideoDecoder.DecodeNextFrame vmTwo
      ({ vsOpen with demuxPos := 2 } : VDState)).1 = none := rfl
  have hbase : (VideoDecoder.DecodeNextFrame vmTwo vsOpen).1 =
      some { width := 4, height := 4, timestamp := 0, payload := 100 } := by
    simp only [VideoDecoder.DecodeNextFrame, VideoDecoder.decodeLoop, vsOpen, vmTwo, vpkt]
    norm_num
    simp
  rw [hafter, hbase]
  simp

/-- On nonnegative values the C integer cast is the floor. -/
theorem truncQ_of_nonneg {q : ℚ} (h : 0 ≤ q) : truncQ q = ⌊q⌋ := if_pos h

/-- The thumbnail-dimension computation fits the requested box and matches
the stream's aspect ratio up to the one-pixel truncation error:
`h·W ≤ w·H + H` and `w·H ≤ h·W + W`. -/
theorem thumbDims_spec (w h mw mh : Int) (hw : 0 < w) (hh : 0 < h)
    (hmw : 0 < mw) (hmh : 0 < mh) :
    (VideoDecoder.thumbDims w h mw mh).1 ≤ mw ∧
    (VideoDecoder.thumbDims w h mw mh).2 ≤ mh ∧
    (VideoDecoder.thumbDims w h mw mh).2 * w ≤
      (VideoDecoder.thumbDims w h mw mh).1 * h + h ∧
    (VideoDecoder.thumbDims w h mw mh).1 * h ≤
      (VideoDecoder.thumbDims w h mw mh).2 * w + w := by
  have hwq : (0 : ℚ) < (w : ℚ) := by exact_mod_cast hw
  have hhq : (0 : ℚ) < (h : ℚ) := by exact_mod_cast hh
  have hmwq : (0 : ℚ) < (mw : ℚ) := by exact_mod_cast hmw
  have hmhq : (0 : ℚ) < (mh : ℚ) := by exact_mod_cast hmh
  have hx : (mw : ℚ) / ((w : ℚ) / (h : ℚ)) = (mw : ℚ) * h / w := by
    rw [div_div_eq_mul_div]
  have hy : (mh : ℚ) * ((w : ℚ) / (h : ℚ)) = (mh : ℚ) * w / h := by
    rw [mul_div_assoc]
  have hxpos : (0 : ℚ) ≤ (mw : ℚ) * h / w := by positivity
  have hypos : (0 : ℚ) ≤ (mh : ℚ) * w / h := by positivity
  unfold VideoDecoder.thumbDims
  rw [hx, hy, truncQ_of_nonneg hxpos, truncQ_of_nonneg hypos]
  set x : ℚ := (mw : ℚ) * h / w with hxdef
  set y : ℚ := (mh : ℚ) * w / h with hydef
  have hxw : x * w = (mw : ℚ) * h := div_mul_cancel₀ _ (ne_of_gt hwq)
  have hyh : y * h = (mh : ℚ) * w := div_mul_cancel₀ _ (ne_of_gt hhq)
  split
  · -- the width-limited branch was too tall: mh < ⌊x⌋
    rename_i hbranch
    refine ⟨?_, le_refl mh, ?_, ?_⟩
    · -- ⌊y⌋ ≤ mw, strictly in fact
      have hmx : (mh : ℚ) < x := lt_of_lt_of_le (by exact_mod_cast hbranch) (Int.floor_le x)
      have hmx2 : (mh : ℚ) * w < (mw : ℚ) * h := by
        rw [hxdef] at hmx
        exact (lt_div_iff₀ hwq).mp hmx
      have hlt : y < (mw : ℚ) := by
        rw [hydef, div_lt_iff₀ hhq]
        linarith
      have : (⌊y⌋ : ℚ) < (mw : ℚ) := lt_of_le_of_lt (Int.floor_le y) hlt
      exact_mod_cast le_of_lt (by exact_mod_cast this : (⌊y⌋ : Int) < mw)
    · -- mh·w ≤ ⌊y⌋·h + h
      have h1 : y < (⌊y⌋ : ℚ) + 1 := Int.lt_floor_add_one y
      have h2 : y * h < ((⌊y⌋ : ℚ) + 1) * h := by
        exact mul_lt_mul_of_pos_right h1 hhq
      rw [hyh] at h2
      have : (mh : ℚ) * w ≤ (⌊y⌋ : ℚ) * h + h := by nlinarith
      exact_mod_cast this
    · -- ⌊y⌋·h ≤ mh·w + w
      have h1 : (⌊y⌋ : ℚ) * h ≤ y * h :=
        mul_le_mul_of_nonneg_right (Int.floor_le y) (le_of_lt hhq)
      rw [hyh] at h1
      have : (⌊y⌋ : ℚ) * h ≤ (mh : ℚ) * w + w := by linarith
      exact_mod_cast this
  · -- aspect fits: the width-limited thumbnail is within the height budget
    rename_i hbranch
    push_neg at hbranch
    refine ⟨le_refl mw, hbranch, ?_, ?_⟩
    · -- ⌊x⌋·w ≤ mw·h + h
      have h1 : (⌊x⌋ : ℚ) * w ≤ x * w :=
        mul_le_mul_of_nonneg_right (Int.floor_le x) (le_of_lt hwq)
      rw [hxw] at h1
      have : (⌊x⌋ : ℚ) * w ≤ (mw : ℚ) * h + h := by linarith
      exact_mod_cast this
    · -- mw·h ≤ ⌊x⌋·w + w
      have h1 : x < (⌊x⌋ : ℚ) + 1 := Int.lt_floor_add_one x
      have h2 : x * w < ((⌊x⌋ : ℚ) + 1) * w := mul_lt_mul_of_pos_right h1 hwq
      rw [hxw] at h2
      have : (mw : ℚ) * h ≤ (⌊x⌋ : ℚ) * w + w := by nlinarith
      exact_mod_cast this

/-- **C8** When `GetThumbnailAt` succeeds on an open decoder with positive
stream dimensions and a positive bounding box, the output frame fits the box
(`width ≤ maxWidth`, `height ≤ maxHeight`), its dimensions match the
stream's aspect ratio up to the integer-truncation granularity
(`h·W` and `w·H` differ by less than one output pixel in either direction),
and its timestamp is the requested time, not the decoded frame's pts. -/
theorem getThumbnailAt_dims (m : VMedia) (s : VDState) (t : ℚ)
    (maxW maxH : Int) (f : VideoFrame)
    (hW : 0 < s.width) (hH : 0 < s.height) (hmW : 0 < maxW) (hmH : 0 < maxH)
    (hres : (VideoDecoder.GetThumbnailAt m s t maxW maxH).1 = some f) :
    f.width ≤ maxW ∧ f.height ≤ maxH ∧ f.timestamp = t ∧
      f.height * s.width ≤ f.width * s.height + s.height ∧
      f.width * s.height ≤ f.height * s.width + s.width := by
  unfold VideoDecoder.GetThumbnailAt at hres
  split at hres
  · exact absurd hres (by simp)
  · split at hres
    · exact absurd hres (by simp)
    · rename_i pos hpos
      split at hres
      · exact absurd hres (by simp)
      · rename_i pkt s2 heq
        have hs2 : s2 = (VideoDecoder.thumbLoop m 50 { s with demuxPos := pos }).2 := by
          rw [heq]
        have hw2 : s2.width = s.width := by
          rw [hs2, thumbLoop_only_demux]
        have hh2 : s2.height = s.height := by
          rw [hs2, thumbLoop_only_demux]
        simp only [Prod.fst] at hres
        have hf := (Option.some.injEq _ _).mp hres.symm
        subst hf
        simp only [hw2, hh2]
        have hd := thumbDims_spec s.width s.height maxW maxH hW hH hmW hmH
        exact ⟨hd.1, hd.2.1, by trivial, hd.2.2.1, hd.2.2.2⟩

/-- Witness for C8: a concrete thumbnail request on the two-packet container,
with a 16×16 box on the 4×4 stream. -/
theorem getThumbnailAt_dims_witness :
    ({ width := 16, height := 16, timestamp := 10, payload := 200 } : VideoFrame).width ≤ 16 ∧
    ({ width := 16, height := 16, timestamp := 10, payload := 200 } : VideoFrame).height ≤ 16 ∧
    ({ width := 16, height := 16, timestamp := 10, payload := 200 } : VideoFrame).timestamp = 10 ∧
    ({ width := 16, height := 16, timestamp := 10, payload := 200 } : VideoFrame).height *
        vsOpen.width ≤
      ({ width := 16, height := 16, timestamp := 10, payload := 200 } : VideoFrame).width *
          vsOpen.height + vsOpen.height ∧
    ({ width := 16, height := 16, timestamp := 10, payload := 200 } : VideoFrame).width *
        vsOpen.height ≤
      ({ width := 16, height := 16, timestamp := 10, payload := 200 } : VideoFrame).height *
          vsOpen.width + vsOpen.width := by
  refine getThumbnailAt_dims vmTwo vsOpen 10 16 16 _ (by decide) (by decide)
    (by decide) (by decide) ?_
  have h1 : truncQ ((10 : ℚ) / vsOpen.timeBase) = 10 := by norm_num [truncQ, vsOpen]
  have h2 : avSeekFrame vmTwo vsOpen.videoStreamIndex
      (truncQ ((10 : ℚ) / vsOpen.timeBase)) = some 1 := by rw [h1]; decide
  have h3 : VideoDecoder.thumbLoop vmTwo 50 { vsOpen with demuxPos := 1 } =
      (some (vpkt 0 10 200), { vsOpen with demuxPos := 2 }) := rfl
  have h4 : VideoDecoder.thumbDims vsOpen.width vsOpen.height 16 16 = (16, 16) := by
    norm_num [VideoDecoder.thumbDims, truncQ, vsOpen]
  unfold VideoDecoder.GetThumbnailAt
  rw [if_neg (by decide), h2]
  simp only [h3, h4]
  rfl

/-! ## Audio decode & playback engine (`audio_decoder.h`, `audio_decoder.cpp`)

The audio container: per-stream metadata (with the outcome of the FFmpeg
setup steps on that stream) and a packet list shared by all streams.
`samples` is the output sample count the resampler produces for the packet's
decoded frame (`swr_get_out_samples`/`swr_convert`). -/

inductive SampleFmt where
  | s16   -- AV_SAMPLE_FMT_S16: 16-bit signed interleaved PCM
  | other
deriving DecidableEq, Repr

/-- The resampler configuration built by `swr_alloc_set_opts2`. -/
structure SwrConfig where
  outFmt : SampleFmt
  outRate : Int
  outChannels : Int
deriving DecidableEq, Repr

structure AStream where
  isAudio : Bool
  codecSupported : Bool   -- avcodec_find_decoder succeeds
  codecOpens : Bool       -- avcodec_open2 succeeds
  swrInitOk : Bool        -- swr_alloc_set_opts2 + swr_init succeed
  channels : Int
  sampleRate : Int
  timeBase : ℚ
  duration : Option Int
deriving DecidableEq, Repr

structure APacket where
  streamIndex : Int
  pts : Option Int
  keyframe : Bool
  corrupt : Bool
  yieldsFrame : Bool
  samples : Nat
deriving DecidableEq, Repr

structure AMedia where
  containerOk : Bool      -- avformat_open_input succeeds
  streamInfoOk : Bool     -- avformat_find_stream_info succeeds
  alDeviceOk : Bool       -- alcOpenDevice/alcCreateContext succeed
  containerDuration : Option Int   -- AVFormatContext::duration (µs), none = AV_NOPTS_VALUE
  streams : List AStream
  packets : List APacket
deriving DecidableEq, Repr

/-- The OpenAL source play state (`AL_SOURCE_STATE`). -/
inductive ALSourceState where
  | initial | playing | paused | stopped
deriving DecidableEq, Repr

/-- The mutable state of an `AudioDecoder`.  `queued` is the number of
buffers currently queued on the source (`AL_BUFFERS_QUEUED`), `sourceState`
the device-side play state, `timeBase` the selected stream's
`av_q2d(time_base)`.  `lockCount` counts acquisitions of `_decodeMutex`
(instrumentation only, never read by the modelled code). -/
structure AState where
  formatOpen : Bool
  codecOpen : Bool
  hasStreamSel : Bool
  swr : Option SwrConfig
  frameAlloc : Bool
  packetAlloc : Bool
  availableAudioStreamIndices : List Int
  audioStreamIndex : Int
  demuxPos : Nat
  sampleRate : Int
  channels : Int
  timeBase : ℚ
  duration : ℚ
  currentTime : ℚ
  volume : ℚ
  alSource : Bool
  gain : ℚ
  queued : Nat
  sourceState : ALSourceState
  isPlaying : Bool
  hasAudio : Bool
  lockCount : Nat
deriving DecidableEq, Repr

/-- `av_seek_frame` on the audio container (backward keyframe seek). -/
def avSeekFrameA (m : AMedia) (streamIndex : Int) (ts : Int) : Option Nat :=
  ((List.range m.packets.length).filter fun i =>
    match m.packets[i]? with
    | some p =>
        p.streamIndex == streamIndex && p.keyframe &&
          (match p.pts with | some v => decide (v ≤ ts) | none => false)
    | none => false).getLast?

namespace AudioDecoder

/-- `NUM_BUFFERS`. -/
def NUM_BUFFERS : Nat := 4

/-- `BUFFER_SIZE` (bytes). -/
def BUFFER_SIZE : Nat := 65536

/-- The state after the member-initialiser list / `Cleanup`: everything
released and reset.  `Cleanup` does not touch `_volume`; the constructor
sets it to 1. -/
def freshState (vol : ℚ) (locks : Nat) : AState :=
  { formatOpen := false, codecOpen := false, hasStreamSel := false, swr := none
    frameAlloc := false, packetAlloc := false, availableAudioStreamIndices := []
    audioStreamIndex := -1, demuxPos := 0, sampleRate := 0, channels := 0
    timeBase := 1, duration := 0, currentTime := 0, volume := vol
    alSource := false, gain := 1, queued := 0, sourceState := ALSourceState.initial
    isPlaying := false, hasAudio := false, lockCount := locks }

/-- The state of a newly constructed `AudioDecoder`. -/
def initState : AState := freshState 1 0

/-- `AudioDecoder::Stop`. -/
def Stop (s : AState) : AState :=
  if s.hasAudio = false then s
  else { s with sourceState := ALSourceState.stopped, isPlaying := false }

/-- `AudioDecoder::Cleanup` (releases OpenAL and FFmpeg state; `_volume`
survives). -/
def Cleanup (s : AState) : AState := freshState s.volume s.lockCount

/-- `AudioDecoder::Close` = `Stop` followed by `Cleanup`. -/
def Close (s : AState) : AState := Cleanup (Stop s)

/-- `AudioDecoder::Play`. -/
def Play (s : AState) : AState :=
  if s.hasAudio = false then s
  else { s with sourceState := ALSourceState.playing, isPlaying := true }

/-- `AudioDecoder::Pause`. -/
def Pause (s : AState) : AState :=
  if s.hasAudio = false then s
  else { s with sourceState := ALSourceState.paused, isPlaying := false }

/-- `AudioDecoder::SetVolume`: store, clamp to [0,1], and if the source
object exists apply the clamped value as the device gain. -/
def SetVolume (s : AState) (volume : ℚ) : AState :=
  let v1 := volume
  let v2 := if v1 < 0 then 0 else v1
  let v3 := if 1 < v2 then 1 else v2
  if s.alSource then { s with volume := v3, gain := v3 }
  else { s with volume := v3 }

/-- The packet-reading loop of `AudioDecoder::DecodeAudioPacket`: skip
packets of other streams, absorb EAGAIN, fail on read/send/receive errors;
on success return the byte size of the resampled chunk
(`converted * channels * sizeof(int16_t)`) and update the current-time
cursor from the frame's pts when present. -/
def audioDecodeLoop (m : AMedia) : Nat → AState → Option Nat × AState
  | 0, s => (none, s)
  | fuel+1, s =>
    match m.packets[s.demuxPos]? with
    | none => (none, s)
    | some pkt =>
      let s1 := { s with demuxPos := s.demuxPos + 1 }
      if pkt.streamIndex ≠ s1.audioStreamIndex then audioDecodeLoop m fuel s1
      else if pkt.corrupt then (none, s1)
      else if pkt.yieldsFrame = false then audioDecodeLoop m fuel s1
      else
        match pkt.pts with
        | some p =>
            (some (pkt.samples * s1.channels.toNat * 2),
             { s1 with currentTime := (p : ℚ) * s1.timeBase })
        | none => (some (pkt.samples * s1.channels.toNat * 2), s1)

/-- `AudioDecoder::DecodeAudioPacket`. -/
def DecodeAudioPacket (m : AMedia) (s : AState) : Option Nat × AState :=
  audioDecodeLoop m (m.packets.length - s.demuxPos) s

/-- The accumulation loop of `AudioDecoder::FillBuffer`: concatenate decoded
chunks until at least `BUFFER_SIZE` bytes are collected or decode fails.
The fuel bounds the number of decode calls; each successful call consumes at
least one packet, so the remaining packet count is sufficient fuel. -/
def fillLoop (m : AMedia) : Nat → Nat → AState → Nat × AState
  | 0, acc, s => (acc, s)
  | fuel+1, acc, s =>
    if acc < BUFFER_SIZE then
      match DecodeAudioPacket m s with
      | (none, s1) => (acc, s1)
      | (some bytes, s1) => fillLoop m fuel (acc + bytes) s1
    else (acc, s)

/-- `AudioDecoder::FillBuffer`: true iff any PCM was collected (the buffer
was handed to `alBufferData`). -/
def FillBuffer (m : AMedia) (s : AState) : Bool × AState :=
  match fillLoop m (m.packets.length - s.demuxPos) 0 s with
  | (total, s1) => (decide (total ≠ 0), s1)

/-- The loop of `AudioDecoder::QueueBuffers`: fill and queue each of the
`NUM_BUFFERS` ring buffers in turn, stopping at the first fill failure. -/
def queueLoop (m : AMedia) : Nat → AState → AState
  | 0, s => s
  | n+1, s =>
    match FillBuffer m s with
    | (false, s1) => s1
    | (true, s1) => queueLoop m n { s1 with queued := s1.queued + 1 }

/-- `AudioDecoder::QueueBuffers`. -/
def QueueBuffers (m : AMedia) (s : AState) : AState := queueLoop m NUM_BUFFERS s

/-- The index of the first audio stream of the container, together with the
list of all audio stream indices (the enumeration loop of `Open`). -/
def audioStreamIndices (m : AMedia) : List Nat :=
  (List.range m.streams.length).filter fun i =>
    match m.streams[i]? with
    | some st => st.isAudio
    | none => false

/-- Codec context build for the selected stream (alloc, parameter copy,
`avcodec_open2`) and the `_sampleRate`/`_channels` reads.  Shared by `Open`
and `SelectAudioStream`, whose code blocks are identical. -/
def selectOpenCodec (st : AStream) (s : AState) : AState :=
  { s with codecOpen := true, sampleRate := st.sampleRate
           channels := st.channels }

/-- Resampler build (`swr_alloc_set_opts2` + `swr_init`): S16 interleaved at
the source rate, downmixed to at most two channels
(`av_channel_layout_default(_channels > 2 ? 2 : _channels)`), then
`_channels = outLayout.nb_channels`; plus the frame/packet allocation.
Shared by `Open` and `SelectAudioStream`. -/
def selectSwr (st : AStream) (s : AState) : AState :=
  { s with
    swr := some { outFmt := SampleFmt.s16, outRate := st.sampleRate
                  outChannels := if 2 < st.channels then 2 else st.channels }
    channels := (if 2 < st.channels then 2 else st.channels)
    frameAlloc := true, packetAlloc := true }

/-- The duration computation of `Open`: container-level duration in
`AV_TIME_BASE` (microsecond) units when present, else the stream duration
scaled by its time base, else left as is. -/
def openDuration (m : AMedia) (st : AStream) (s : AState) : AState :=
  { s with duration :=
      match m.containerDuration with
      | some d => (d : ℚ) / 1000000
      | none =>
        match st.duration with
        | some d => (d : ℚ) * st.timeBase
        | none => s.duration }

/-- Frame and packet allocation (`av_frame_alloc`/`av_packet_alloc`,
modelled as succeeding). -/
def openAlloc (s : AState) : AState :=
  { s with frameAlloc := true, packetAlloc := true }

/-- `InitOpenAL` success: device, context, source and buffer objects exist
and the stored volume is applied as the source gain. -/
def openAL (s : AState) : AState :=
  { s with alSource := true, gain := s.volume }

/-- The tail of a successful `Open`: reset the time cursor and raise the
has-audio flag. -/
def openFinish (s : AState) : AState :=
  { s with currentTime := 0, hasAudio := true }

/-- `Open` after the resampler is built: duration, allocations, OpenAL setup
and the ring pre-fill. -/
def openWithSwr (m : AMedia) (s : AState) : Bool × AState :=
  if m.alDeviceOk = false then (false, Close (openAlloc s))
  else (true, QueueBuffers m (openFinish (openAL (openAlloc s))))

/-- `Open` after the codec is opened: the resampler step. -/
def openWithCodec (m : AMedia) (st : AStream) (s : AState) : Bool × AState :=
  if st.swrInitOk = false then (false, Close s)
  else openWithSwr m (openDuration m st (selectSwr st s))

/-- `Open` after the first audio stream is selected: decoder lookup and
codec open. -/
def openWithStream (m : AMedia) (st : AStream) (s : AState) : Bool × AState :=
  if st.codecSupported = false then (false, Close s)
  else if st.codecOpens = false then (false, Close s)
  else openWithCodec m st (selectOpenCodec st s)

/-- `Open` after `avformat_find_stream_info`: enumerate the audio streams,
select the first one. -/
def openWithContainer (m : AMedia) (s : AState) : Bool × AState :=
  if m.streamInfoOk = false then (false, Close s)
  else
    match audioStreamIndices m with
    | [] =>
        (false, Close { s with availableAudioStreamIndices :=
          (audioStreamIndices m).map Int.ofNat })
    | i0 :: _ =>
      match m.streams[i0]? with
      | none =>
          (false, Close { s with availableAudioStreamIndices :=
            (audioStreamIndices m).map Int.ofNat })
      | some st =>
        openWithStream m st
          { s with availableAudioStreamIndices :=
                     (audioStreamIndices m).map Int.ofNat
                   audioStreamIndex := Int.ofNat i0, hasStreamSel := true
                   timeBase := st.timeBase }

/-- `AudioDecoder::Open` (the current version: OpenAL is initialised after
the FFmpeg setup, and the buffer ring is pre-filled last).  It begins with
`Close()`; every failure path runs `Close()` again. -/
def Open (m : AMedia) (s0 : AState) : Bool × AState :=
  if m.containerOk = false then (false, Close s0)
  else openWithContainer m { (Close s0) with formatOpen := true }

/-- The unconditional stop-and-drain at the top of `Seek`'s locked body. -/
def seekDrain (s : AState) : AState :=
  { s with sourceState := ALSourceState.stopped, queued := 0 }

/-- Resume playback when it was active before the operation
(`if (was_playing) alSourcePlay(...)`). -/
def selectResume (wasPlaying : Bool) (s : AState) : AState :=
  if wasPlaying then
    { s with sourceState := ALSourceState.playing, isPlaying := true }
  else s

/-- The locked body of `Seek` after the open check: drain, backward keyframe
seek (failure leaves the ring drained), flush, refill, resume. -/
def seekLocked (m : AMedia) (t : ℚ) (s : AState) : Bool × AState :=
  match avSeekFrameA m s.audioStreamIndex (truncQ (t / s.timeBase)) with
  | none => (false, seekDrain s)
  | some pos =>
    (true, selectResume s.isPlaying
      (QueueBuffers m { (seekDrain s) with demuxPos := pos, currentTime := t }))

/-- `AudioDecoder::Seek` (audio).  The lock is taken before the open
check. -/
def Seek (m : AMedia) (s0 : AState) (t : ℚ) : Bool × AState :=
  if s0.formatOpen = false ∨ s0.hasStreamSel = false then
    (false, { s0 with lockCount := s0.lockCount + 1 })
  else seekLocked m t { s0 with lockCount := s0.lockCount + 1 }

/-- The stop-and-drain step at the top of `SelectAudioStream`'s locked body:
performed only when audio is present (`alSourceStop` plus unqueuing every
queued buffer). -/
def drainIfAudio (s : AState) : AState :=
  if s.hasAudio = true then
    { s with sourceState := ALSourceState.stopped, queued := 0 }
  else s

/-- The teardown step: `swr_free`, `av_frame_free`, `av_packet_free`,
`avcodec_free_context`. -/
def freeDecodeState (s : AState) : AState :=
  { s with swr := none, frameAlloc := false, packetAlloc := false
           codecOpen := false }

/-- `_audioStreamIndex`/`_audioStream` reassignment to the new stream. -/
def selectSetStream (st : AStream) (streamIndex : Int) (s : AState) : AState :=
  { s with audioStreamIndex := streamIndex, hasStreamSel := true
           timeBase := st.timeBase }

/-- The optional realignment seek (`if (seek_time > 0.0)`): the
`av_seek_frame` result is not checked, the flush and the current-time
assignment happen regardless. -/
def selectSeek (m : AMedia) (streamIndex : Int) (tb : ℚ) (syncTime : ℚ)
    (s : AState) : AState :=
  if 0 < syncTime then
    match avSeekFrameA m streamIndex (truncQ (syncTime / tb)) with
    | some pos => { s with demuxPos := pos, currentTime := syncTime }
    | none => { s with currentTime := syncTime }
  else s

/-- The rebuild tail of the locked body, after teardown: the three fallible
FFmpeg steps, then seek, ring refill and resume. -/
def selectRebuild (m : AMedia) (st : AStream) (streamIndex : Int)
    (syncTime : ℚ) (wasPlaying : Bool) (s : AState) : Bool × AState :=
  if st.codecSupported = false then (false, s)
  else if st.codecOpens = false then (false, s)
  else if st.swrInitOk = false then (false, selectOpenCodec st s)
  else
    (true, selectResume wasPlaying
      (QueueBuffers m (selectSeek m streamIndex st.timeBase syncTime
        (selectSwr st (selectOpenCodec st s)))))

/-- `AudioDecoder::SelectAudioStream`.  The validation (open container,
index in range, audio stream, different from current) happens before the
lock; the locked body stops and drains the ring, frees the resampler,
frame, packet and codec context, then rebuilds them for the new stream,
optionally seeks to `sync_time` (the `av_seek_frame` result is ignored),
refills the ring and resumes playback if it was active. -/
def SelectAudioStream (m : AMedia) (s0 : AState) (streamIndex : Int)
    (syncTime : ℚ) : Bool × AState :=
  if s0.formatOpen = false then (false, s0)
  else if streamIndex < 0 ∨ (m.streams.length : Int) ≤ streamIndex then (false, s0)
  else
    match m.streams[streamIndex.toNat]? with
    | none => (false, s0)
    | some st =>
      if st.isAudio = false then (false, s0)
      else if s0.audioStreamIndex = streamIndex then (true, s0)
      else
        selectRebuild m st streamIndex syncTime
          ({ s0 with lockCount := s0.lockCount + 1 }).isPlaying
          (selectSetStream st streamIndex
            (freeDecodeState
              (drainIfAudio { s0 with lockCount := s0.lockCount + 1 })))

/-- The device-driven observations `Update` reads: the source play state and
the processed-buffer count (`AL_SOURCE_STATE` / `AL_BUFFERS_PROCESSED`). -/
structure ALObs where
  sourceState : ALSourceState
  processed : Nat
deriving DecidableEq, Repr

/-- The unqueue/refill loop of `AudioDecoder::Update`: each processed buffer
is unqueued first, and re-queued only if its refill succeeds. -/
def updateLoop (m : AMedia) : Nat → AState → AState
  | 0, s => s
  | n+1, s =>
    match FillBuffer m { s with queued := s.queued - 1 } with
    | (true, s2) => updateLoop m n { s2 with queued := s2.queued + 1 }
    | (false, s2) => updateLoop m n s2

/-- The underrun guard at the end of `Update`: if the device fell out of the
playing state while the engine believes it is playing, restart it when
buffers remain queued, otherwise transition to not playing
(end of stream). -/
def updateRestart (obs : ALObs) (s : AState) : AState :=
  if obs.sourceState ≠ ALSourceState.playing ∧ s.isPlaying = true then
    if 0 < s.queued then { s with sourceState := ALSourceState.playing }
    else { s with isPlaying := false }
  else s

/-- `AudioDecoder::Update`: the steady-state streaming tick.  Each buffer
the device reports processed is unqueued and, when its refill succeeds,
re-queued; then the underrun guard runs. -/
def Update (m : AMedia) (obs : ALObs) (s0 : AState) : AState :=
  if s0.hasAudio = false ∨ s0.isPlaying = false then s0
  else updateRestart obs
    (updateLoop m obs.processed { s0 with lockCount := s0.lockCount + 1 })

end AudioDecoder

/-! ### Structure of the audio loops

The decode and fill loops touch only the demux cursor and the current-time
cursor; the queue loop additionally touches the queued count.  These shape
lemmas let every other field be read through them. -/

theorem audioDecodeLoop_shape (m : AMedia) :
    ∀ (n : Nat) (s : AState),
      (AudioDecoder.audioDecodeLoop m n s).2 =
        { s with demuxPos := (AudioDecoder.audioDecodeLoop m n s).2.demuxPos
                 currentTime := (AudioDecoder.audioDecodeLoop m n s).2.currentTime } := by
  intro n
  induction n with
  | zero => intro s; rfl
  | succ k ih =>
    intro s
    unfold AudioDecoder.audioDecodeLoop
    cases h : m.packets[s.demuxPos]? with
    | none => rfl
    | some pkt =>
      dsimp only
      split
      · exact ih _
      · split
        · rfl
        · split
          · exact ih _
          · split
            · rfl
            · rfl

theorem fillLoop_shape (m : AMedia) :
    ∀ (fuel acc : Nat) (s : AState),
      (AudioDecoder.fillLoop m fuel acc s).2 =
        { s with demuxPos := (AudioDecoder.fillLoop m fuel acc s).2.demuxPos
                 currentTime := (AudioDecoder.fillLoop m fuel acc s).2.currentTime } := by
  intro fuel
  induction fuel with
  | zero => intro acc s; rfl
  | succ k ih =>
    intro acc s
    unfold AudioDecoder.fillLoop
    split
    · rename_i hacc
      cases h : AudioDecoder.DecodeAudioPacket m s with
      | mk r s1 =>
        have hs1 : s1 = (AudioDecoder.audioDecodeLoop m
            (m.packets.length - s.demuxPos) s).2 := by
          rw [show AudioDecoder.audioDecodeLoop m (m.packets.length - s.demuxPos) s =
                AudioDecoder.DecodeAudioPacket m s from rfl, h]
        cases r with
        | none => dsimp only; rw [hs1, audioDecodeLoop_shape]
        | some bytes =>
          dsimp only
          rw [ih (acc + bytes) s1]
          rw [hs1, audioDecodeLoop_shape]
    · rfl

theorem fillBuffer_shape (m : AMedia) (s : AState) :
    (AudioDecoder.FillBuffer m s).2 =
      { s with demuxPos := (AudioDecoder.FillBuffer m s).2.demuxPos
               currentTime := (AudioDecoder.FillBuffer m s).2.currentTime } := by
  unfold AudioDecoder.FillBuffer
  cases h : AudioDecoder.fillLoop m (m.packets.length - s.demuxPos) 0 s with
  | mk total s1 =>
    have hs1 : s1 = (AudioDecoder.fillLoop m (m.packets.length - s.demuxPos) 0 s).2 := by
      rw [h]
    dsimp only
    rw [hs1, fillLoop_shape]

theorem queueLoop_shape (m : AMedia) :
    ∀ (n : Nat) (s : AState),
      AudioDecoder.queueLoop m n s =
        { s with demuxPos := (AudioDecoder.queueLoop m n s).demuxPos
                 currentTime := (AudioDecoder.queueLoop m n s).currentTime
                 queued := (AudioDecoder.queueLoop m n s).queued } := by
  intro n
  induction n with
  | zero => intro s; rfl
  | succ k ih =>
    intro s
    unfold AudioDecoder.queueLoop
    cases h : AudioDecoder.FillBuffer m s with
    | mk ok s1 =>
      have hs1 : s1 = (AudioDecoder.FillBuffer m s).2 := by rw [h]
      cases ok with
      | false =>
        dsimp only
        rw [hs1, fillBuffer_shape]
      | true =>
        dsimp only
        rw [ih { s1 with queued := s1.queued + 1 }]
        rw [hs1, fillBuffer_shape]

theorem updateLoop_shape (m : AMedia) :
    ∀ (n : Nat) (s : AState),
      AudioDecoder.updateLoop m n s =
        { s with demuxPos := (AudioDecoder.updateLoop m n s).demuxPos
                 currentTime := (AudioDecoder.updateLoop m n s).currentTime
                 queued := (AudioDecoder.updateLoop m n s).queued } := by
  intro n
  induction n with
  | zero => intro s; rfl
  | succ k ih =>
    intro s
    unfold AudioDecoder.updateLoop
    split
    · rename_i s2 heq
      have hs2 : s2 = (AudioDecoder.FillBuffer m { s with queued := s.queued - 1 }).2 := by
        rw [heq]
      rw [ih { s2 with queued := s2.queued + 1 }]
      rw [hs2, fillBuffer_shape]
    · rename_i s2 heq
      have hs2 : s2 = (AudioDecoder.FillBuffer m { s with queued := s.queued - 1 }).2 := by
        rw [heq]
      rw [ih s2]
      rw [hs2, fillBuffer_shape]

/-- **C9** After `SetVolume(v)` the stored volume lies in `[0,1]` and equals
`v` clamped to `[0,1]`; when the source object exists the same clamped value
is applied as the device gain. -/
theorem setVolume_clamps (s : AState) (v : ℚ) :
    0 ≤ (AudioDecoder.SetVolume s v).volume ∧
    (AudioDecoder.SetVolume s v).volume ≤ 1 ∧
    (AudioDecoder.SetVolume s v).volume = max 0 (min v 1) ∧
    (s.alSource = true → (AudioDecoder.SetVolume s v).gain = max 0 (min v 1)) := by
  have hcl : (if 1 < (if v < 0 then (0 : ℚ) else v) then (1 : ℚ)
      else if v < 0 then (0 : ℚ) else v) = max 0 (min v 1) := by
    rcases lt_or_le v 0 with h0 | h0
    · rw [if_pos h0, if_neg (by norm_num : ¬(1 : ℚ) < 0),
        min_eq_left (by linarith : v ≤ 1), max_eq_left (by linarith : v ≤ 0)]
    · rw [if_neg (not_lt.mpr h0)]
      rcases lt_or_le 1 v with h1 | h1
      · rw [if_pos h1, min_eq_right (by linarith : (1 : ℚ) ≤ v),
          max_eq_right (by norm_num : (0 : ℚ) ≤ 1)]
      · rw [if_neg (not_lt.mpr h1), min_eq_left h1, max_eq_right h0]
  unfold AudioDecoder.SetVolume
  split
  · rename_i hsrc
    refine ⟨?_, ?_, ?_, fun _ => ?_⟩ <;> dsimp only <;> rw [hcl]
    · exact le_max_left 0 _
    · exact max_le (by norm_num) (min_le_right v 1)
  · rename_i hsrc
    refine ⟨?_, ?_, ?_, fun hs => absurd hs (by simpa using hsrc)⟩ <;>
      dsimp only <;> rw [hcl]
    · exact le_max_left 0 _
    · exact max_le (by norm_num) (min_le_right v 1)

/-- Witness for C9: `SetVolume 2` on a state with a live source stores and
applies gain 1. -/
theorem setVolume_clamps_witness :
    0 ≤ (AudioDecoder.SetVolume { AudioDecoder.initState with alSource := true } 2).volume ∧
    (AudioDecoder.SetVolume { AudioDecoder.initState with alSource := true } 2).volume ≤ 1 ∧
    (AudioDecoder.SetVolume { AudioDecoder.initState with alSource := true } 2).volume =
      max 0 (min 2 1) ∧
    (({ AudioDecoder.initState with alSource := true } : AState).alSource = true →
      (AudioDecoder.SetVolume { AudioDecoder.initState with alSource := true } 2).gain =
        max 0 (min 2 1)) :=
  setVolume_clamps { AudioDecoder.initState with alSource := true } 2

/-- **C10** For every open `AudioDecoder`, the validation of
`SelectAudioStream` happens before the lock and mutates nothing: an
out-of-range index returns false, an in-range non-audio index returns false,
and the currently selected index returns true, each with the state returned
exactly as it was (in particular `lockCount`, the mutex-acquisition
instrumentation, is unchanged). -/
theorem selectAudioStream_validation (m : AMedia) (s : AState) (idx : Int)
    (t : ℚ) (hOpen : s.formatOpen = true) :
    ((idx < 0 ∨ (m.streams.length : Int) ≤ idx) →
        AudioDecoder.SelectAudioStream m s idx t = (false, s)) ∧
    (∀ st, m.streams[idx.toNat]? = some st → st.isAudio = false →
        AudioDecoder.SelectAudioStream m s idx t = (false, s)) ∧
    (∀ st, m.streams[idx.toNat]? = some st → st.isAudio = true →
        ¬(idx < 0 ∨ (m.streams.length : Int) ≤ idx) →
        s.audioStreamIndex = idx →
        AudioDecoder.SelectAudioStream m s idx t = (true, s)) := by
  refine ⟨fun hrange => ?_, fun st hst hna => ?_, fun st hst ha hrange heq => ?_⟩
  · unfold AudioDecoder.SelectAudioStream
    rw [if_neg (by simp [hOpen]), if_pos hrange]
  · unfold AudioDecoder.SelectAudioStream
    rw [if_neg (by simp [hOpen])]
    split
    · rfl
    · simp only [hst]
      rw [if_pos hna]
  · unfold AudioDecoder.SelectAudioStream
    rw [if_neg (by simp [hOpen]), if_neg hrange]
    simp only [hst]
    rw [if_neg (by simp [ha]), if_pos heq]

/-! ### Audio fixtures -/

/-- A fully working 48 kHz mono audio stream. -/
def astGood : AStream :=
  { isAudio := true, codecSupported := true, codecOpens := true, swrInitOk := true
    channels := 1, sampleRate := 48000, timeBase := 1, duration := none }

/-- An audio stream whose decoder is not available
(`avcodec_find_decoder` fails). -/
def astBad : AStream :=
  { isAudio := true, codecSupported := false, codecOpens := false, swrInitOk := false
    channels := 2, sampleRate := 44100, timeBase := 1, duration := none }

/-- A 5.1 surround stream (six channels), otherwise fully working. -/
def astSix : AStream :=
  { isAudio := true, codecSupported := true, codecOpens := true, swrInitOk := true
    channels := 6, sampleRate := 44100, timeBase := 1, duration := none }

/-- One audio packet of stream 0, 40000 resampled output samples
(80000 bytes of mono S16, more than one 64 KiB buffer), no pts. -/
def apkt : APacket :=
  { streamIndex := 0, pts := none, keyframe := true, corrupt := false
    yieldsFrame := true, samples := 40000 }

/-- A container with a working first audio stream, a second audio stream with
an unavailable decoder, and enough audio data to fill the whole buffer ring. -/
def mSwitch : AMedia :=
  { containerOk := true, streamInfoOk := true, alDeviceOk := true
    containerDuration := none
    streams := [astGood, astBad], packets := [apkt, apkt, apkt, apkt] }

/-- A container whose only audio stream has six channels. -/
def mSix : AMedia :=
  { containerOk := true, streamInfoOk := true, alDeviceOk := true
    containerDuration := none, streams := [astSix], packets := [] }

/-- The engine opened on `mSwitch` and set playing. -/
def aPlaying : AState :=
  AudioDecoder.Play (AudioDecoder.Open mSwitch AudioDecoder.initState).2

/-- Witness for C10: selecting the already selected stream 0 of an open,
playing engine returns true and the very same state. -/
theorem selectAudioStream_validation_witness :
    AudioDecoder.SelectAudioStream mSwitch aPlaying 0 0 = (true, aPlaying) :=
  (selectAudioStream_validation mSwitch aPlaying 0 0 (by decide)).2.2 astGood
    (by decide) (by decide) (by decide) (by decide)

/-! ### Field preservation through `QueueBuffers` -/

theorem queueBuffers_swr (m : AMedia) (s : AState) :
    (AudioDecoder.QueueBuffers m s).swr = s.swr := by
  unfold AudioDecoder.QueueBuffers; rw [queueLoop_shape]

theorem queueBuffers_channels (m : AMedia) (s : AState) :
    (AudioDecoder.QueueBuffers m s).channels = s.channels := by
  unfold AudioDecoder.QueueBuffers; rw [queueLoop_shape]

theorem queueBuffers_sampleRate (m : AMedia) (s : AState) :
    (AudioDecoder.QueueBuffers m s).sampleRate = s.sampleRate := by
  unfold AudioDecoder.QueueBuffers; rw [queueLoop_shape]

theorem queueBuffers_hasAudio (m : AMedia) (s : AState) :
    (AudioDecoder.QueueBuffers m s).hasAudio = s.hasAudio := by
  unfold AudioDecoder.QueueBuffers; rw [queueLoop_shape]

theorem queueBuffers_formatOpen (m : AMedia) (s : AState) :
    (AudioDecoder.QueueBuffers m s).formatOpen = s.formatOpen := by
  unfold AudioDecoder.QueueBuffers; rw [queueLoop_shape]

theorem queueBuffers_isPlaying (m : AMedia) (s : AState) :
    (AudioDecoder.QueueBuffers m s).isPlaying = s.isPlaying := by
  unfold AudioDecoder.QueueBuffers; rw [queueLoop_shape]

theorem fillBuffer_queued (m : AMedia) (s : AState) :
    (AudioDecoder.FillBuffer m s).2.queued = s.queued := by
  rw [fillBuffer_shape]

/-- `QueueBuffers` queues at most `n` additional buffers in `n` rounds. -/
theorem queueLoop_queued_le (m : AMedia) :
    ∀ (n : Nat) (s : AState),
      (AudioDecoder.queueLoop m n s).queued ≤ s.queued + n := by
  intro n
  induction n with
  | zero => intro s; exact Nat.le_add_right _ _
  | succ k ih =>
    intro s
    unfold AudioDecoder.queueLoop
    split
    · rename_i s1 heq
      have hq : s1.queued = s.queued := by
        have hs1 : s1 = (AudioDecoder.FillBuffer m s).2 := by rw [heq]
        rw [hs1, fillBuffer_queued]
      omega
    · rename_i s1 heq
      have hq : s1.queued = s.queued := by
        have hs1 : s1 = (AudioDecoder.FillBuffer m s).2 := by rw [heq]
        rw [hs1, fillBuffer_queued]
      have h2 := ih { s1 with queued := s1.queued + 1 }
      simp only at h2
      omega

/-- The `Update` refill loop never grows the ring: each round unqueues one
buffer before possibly re-queuing it. -/
theorem updateLoop_queued_le (m : AMedia) :
    ∀ (n : Nat) (s : AState),
      (AudioDecoder.updateLoop m n s).queued ≤ max s.queued 1 := by
  intro n
  induction n with
  | zero => intro s; exact le_max_left _ _
  | succ k ih =>
    intro s
    unfold AudioDecoder.updateLoop
    split
    · rename_i s2 heq
      have hq : s2.queued = s.queued - 1 := by
        have hs2 : s2 = (AudioDecoder.FillBuffer m
            { s with queued := s.queued - 1 }).2 := by rw [heq]
        rw [hs2, fillBuffer_queued]
      have h2 := ih { s2 with queued := s2.queued + 1 }
      simp only at h2
      omega
    · rename_i s2 heq
      have hq : s2.queued = s.queued - 1 := by
        have hs2 : s2 = (AudioDecoder.FillBuffer m
            { s with queued := s.queued - 1 }).2 := by rw [heq]
        rw [hs2, fillBuffer_queued]
      have h2 := ih s2
      omega

/-- **C6** After a successful `AudioDecoder::Open` on a container whose first
audio stream has `c` channels, the resampler targets 16-bit signed
interleaved PCM at the source sample rate with `min c 2` output channels,
and `GetChannels()` returns `min c 2`. -/
theorem open_resampler_config (m : AMedia) (s0 : AState) (i0 : Nat)
    (st : AStream)
    (hidx : (AudioDecoder.audioStreamIndices m).head? = some i0)
    (hst : m.streams[i0]? = some st)
    (hopen : (AudioDecoder.Open m s0).1 = true) :
    (AudioDecoder.Open m s0).2.swr =
      some { outFmt := SampleFmt.s16, outRate := st.sampleRate
             outChannels := min st.channels 2 } ∧
    (AudioDecoder.Open m s0).2.channels = min st.channels 2 ∧
    (AudioDecoder.Open m s0).2.sampleRate = st.sampleRate := by
  have hmin : (if 2 < st.channels then (2 : Int) else st.channels) =
      min st.channels 2 := by split <;> omega
  obtain ⟨rest, hlist⟩ : ∃ rest, AudioDecoder.audioStreamIndices m = i0 :: rest := by
    cases hl : AudioDecoder.audioStreamIndices m with
    | nil => rw [hl] at hidx; cases hidx
    | cons a as =>
      rw [hl] at hidx
      simp only [List.head?] at hidx
      exact ⟨as, by rw [Option.some.injEq] at hidx; rw [hidx]⟩
  unfold AudioDecoder.Open at hopen ⊢
  split at hopen
  · cases hopen
  · rename_i hck
    rw [if_neg hck]
    unfold AudioDecoder.openWithContainer at hopen ⊢
    simp only [hlist, hst] at hopen ⊢
    split at hopen
    · cases hopen
    · rename_i hsi
      rw [if_neg hsi]
      unfold AudioDecoder.openWithStream at hopen ⊢
      split at hopen
      · cases hopen
      · rename_i hcs
        split at hopen
        · cases hopen
        · rename_i hco
          rw [if_neg hcs, if_neg hco]
          unfold AudioDecoder.openWithCodec at hopen ⊢
          split at hopen
          · cases hopen
          · rename_i hsw
            rw [if_neg hsw]
            unfold AudioDecoder.openWithSwr at hopen ⊢
            split at hopen
            · cases hopen
            · rename_i hal
              rw [if_neg hal]
              refine ⟨?_, ?_, ?_⟩
              · rw [queueBuffers_swr]
                simp only [AudioDecoder.openFinish, AudioDecoder.openAL,
                  AudioDecoder.openAlloc, AudioDecoder.openDuration,
                  AudioDecoder.selectSwr]
                rw [hmin]
              · rw [queueBuffers_channels]
                simp only [AudioDecoder.openFinish, AudioDecoder.openAL,
                  AudioDecoder.openAlloc, AudioDecoder.openDuration,
                  AudioDecoder.selectSwr]
                rw [hmin]
              · rw [queueBuffers_sampleRate]
                simp only [AudioDecoder.openFinish, AudioDecoder.openAL,
                  AudioDecoder.openAlloc, AudioDecoder.openDuration,
                  AudioDecoder.selectSwr, AudioDecoder.selectOpenCodec]

/-- Witness for C6: opening the six-channel container downmixes to stereo. -/
theorem open_resampler_config_witness :
    (AudioDecoder.Open mSix AudioDecoder.initState).2.swr =
      some { outFmt := SampleFmt.s16, outRate := astSix.sampleRate
             outChannels := min astSix.channels 2 } ∧
    (AudioDecoder.Open mSix AudioDecoder.initState).2.channels =
      min astSix.channels 2 ∧
    (AudioDecoder.Open mSix AudioDecoder.initState).2.sampleRate =
      astSix.sampleRate :=
  open_resampler_config mSix AudioDecoder.initState 0 astSix
    (by decide) (by decide) (by decide)

/-- **C2 (amended)** A successful `SelectAudioStream` preserves the play
state: if playback was active before the call it is active after it.
When the call returns false, the state is either returned exactly as it was
(the pre-lock validation failures) or the previous decode/resample state has
already been torn down: the resampler is freed (`swr = none`) and, when
audio was present, the playback ring is drained — it is not left intact. -/
theorem selectAudioStream_switch (m : AMedia) (s : AState) (idx : Int) (t : ℚ) :
    ((AudioDecoder.SelectAudioStream m s idx t).1 = true → s.isPlaying = true →
      (AudioDecoder.SelectAudioStream m s idx t).2.isPlaying = true) ∧
    ((AudioDecoder.SelectAudioStream m s idx t).1 = false →
      (AudioDecoder.SelectAudioStream m s idx t).2 = s ∨
      ((AudioDecoder.SelectAudioStream m s idx t).2.swr = none ∧
       (s.hasAudio = true → (AudioDecoder.SelectAudioStream m s idx t).2.queued = 0))) := by
  have hq : ∀ s' : AState, s'.hasAudio = true →
      (AudioDecoder.drainIfAudio s').queued = 0 := by
    intro s' h
    unfold AudioDecoder.drainIfAudio
    rw [if_pos h]
  unfold AudioDecoder.SelectAudioStream
  split
  · exact ⟨fun h _ => Bool.noConfusion h, fun _ => Or.inl rfl⟩
  · split
    · exact ⟨fun h _ => Bool.noConfusion h, fun _ => Or.inl rfl⟩
    · split
      · exact ⟨fun h _ => Bool.noConfusion h, fun _ => Or.inl rfl⟩
      · split
        · exact ⟨fun h _ => Bool.noConfusion h, fun _ => Or.inl rfl⟩
        · split
          · exact ⟨fun _ h => h, fun h => Bool.noConfusion h⟩
          · -- the locked rebuild path
            unfold AudioDecoder.selectRebuild
            split
            · exact ⟨fun h _ => Bool.noConfusion h,
                     fun _ => Or.inr ⟨rfl, fun hf =>
                       hq { s with lockCount := s.lockCount + 1 } hf⟩⟩
            · split
              · exact ⟨fun h _ => Bool.noConfusion h,
                       fun _ => Or.inr ⟨rfl, fun hf =>
                         hq { s with lockCount := s.lockCount + 1 } hf⟩⟩
              · split
                · exact ⟨fun h _ => Bool.noConfusion h,
                         fun _ => Or.inr ⟨rfl, fun hf =>
                           hq { s with lockCount := s.lockCount + 1 } hf⟩⟩
                · refine ⟨fun _ hp => ?_, fun h => Bool.noConfusion h⟩
                  unfold AudioDecoder.selectResume
                  rw [if_pos hp]

/-- **C2 (counterexample)** Switching the open, playing engine to the second
audio stream of `mSwitch` (whose decoder is unavailable) returns false, yet
the previous state is not left intact: the resampler is gone, the four
queued buffers are drained, and the source has been stopped. -/
theorem selectAudioStream_failure_destroys_state :
    (AudioDecoder.SelectAudioStream mSwitch aPlaying 1 0).1 = false ∧
    aPlaying.swr ≠ none ∧
    aPlaying.queued = 4 ∧
    aPlaying.sourceState = ALSourceState.playing ∧
    (AudioDecoder.SelectAudioStream mSwitch aPlaying 1 0).2.swr = none ∧
    (AudioDecoder.SelectAudioStream mSwitch aPlaying 1 0).2.queued = 0 ∧
    (AudioDecoder.SelectAudioStream mSwitch aPlaying 1 0).2.sourceState =
      ALSourceState.stopped := by decide

/-- Witness for C2: the failing switch lands in the torn-down disjunct. -/
theorem selectAudioStream_switch_witness :
    (AudioDecoder.SelectAudioStream mSwitch aPlaying 1 0).2 = aPlaying ∨
    ((AudioDecoder.SelectAudioStream mSwitch aPlaying 1 0).2.swr = none ∧
     (aPlaying.hasAudio = true →
       (AudioDecoder.SelectAudioStream mSwitch aPlaying 1 0).2.queued = 0)) :=
  (selectAudioStream_switch mSwitch aPlaying 1 0).2 (by decide)

/-! ### The buffer-ring invariant (C4)

`Inv` is the ring bound strengthened with the two facts needed to push it
through every operation: an open container implies audio present (so the
locked bodies always drain before refilling) and without audio the ring is
empty. -/

def Inv (s : AState) : Prop :=
  s.queued ≤ 4 ∧ (s.formatOpen = true → s.hasAudio = true) ∧
  (s.hasAudio = false → s.queued = 0)

theorem inv_fresh (v : ℚ) (l : Nat) : Inv (AudioDecoder.freshState v l) :=
  ⟨by simp [AudioDecoder.freshState], fun h => by
      simp [AudioDecoder.freshState] at h,
   fun _ => by simp [AudioDecoder.freshState]⟩

theorem close_eq (s : AState) :
    AudioDecoder.Close s = AudioDecoder.freshState s.volume s.lockCount := by
  unfold AudioDecoder.Close AudioDecoder.Cleanup AudioDecoder.Stop
  split <;> rfl

theorem inv_close (s : AState) : Inv (AudioDecoder.Close s) := by
  rw [close_eq]; exact inv_fresh _ _

theorem inv_queueBuffers (m : AMedia) (s : AState) (h0 : s.queued = 0)
    (hfa : s.hasAudio = true) : Inv (AudioDecoder.QueueBuffers m s) := by
  refine ⟨?_, fun _ => ?_, fun hf => ?_⟩
  · have h := queueLoop_queued_le m AudioDecoder.NUM_BUFFERS s
    have h' : (AudioDecoder.queueLoop m 4 s).queued ≤ s.queued + 4 := h
    show (AudioDecoder.queueLoop m 4 s).queued ≤ 4
    omega
  · rw [queueBuffers_hasAudio]; exact hfa
  · rw [queueBuffers_hasAudio] at hf
    exact absurd hf (by simp [hfa])

theorem inv_play (s : AState) (h : Inv s) : Inv (AudioDecoder.Play s) := by
  unfold AudioDecoder.Play
  split
  · exact h
  · rename_i hfa
    exact ⟨h.1, fun _ => by simpa using hfa, fun hf => absurd hf (by simpa using hfa)⟩

theorem inv_pause (s : AState) (h : Inv s) : Inv (AudioDecoder.Pause s) := by
  unfold AudioDecoder.Pause
  split
  · exact h
  · rename_i hfa
    exact ⟨h.1, fun _ => by simpa using hfa, fun hf => absurd hf (by simpa using hfa)⟩

theorem inv_stop (s : AState) (h : Inv s) : Inv (AudioDecoder.Stop s) := by
  unfold AudioDecoder.Stop
  split
  · exact h
  · rename_i hfa
    exact ⟨h.1, fun _ => by simpa using hfa, fun hf => absurd hf (by simpa using hfa)⟩

theorem inv_setVolume (s : AState) (v : ℚ) (h : Inv s) :
    Inv (AudioDecoder.SetVolume s v) := by
  unfold AudioDecoder.SetVolume
  split
  · exact ⟨h.1, h.2.1, h.2.2⟩
  · exact ⟨h.1, h.2.1, h.2.2⟩

/-- Playback resumption does not touch the ring, the container or the
has-audio flag. -/
theorem inv_selectResume (w : Bool) (s : AState) (h : Inv s) :
    Inv (AudioDecoder.selectResume w s) := by
  unfold AudioDecoder.selectResume
  split
  · exact ⟨h.1, h.2.1, h.2.2⟩
  · exact h

theorem inv_openWithSwr (m : AMedia) (s : AState) (h0 : s.queued = 0) :
    Inv (AudioDecoder.openWithSwr m s).2 := by
  unfold AudioDecoder.openWithSwr
  split
  · exact inv_close _
  · exact inv_queueBuffers m _ h0 rfl

theorem inv_openWithCodec (m : AMedia) (st : AStream) (s : AState)
    (h0 : s.queued = 0) : Inv (AudioDecoder.openWithCodec m st s).2 := by
  unfold AudioDecoder.openWithCodec
  split
  · exact inv_close _
  · exact inv_openWithSwr m _ h0

theorem inv_openWithStream (m : AMedia) (st : AStream) (s : AState)
    (h0 : s.queued = 0) : Inv (AudioDecoder.openWithStream m st s).2 := by
  unfold AudioDecoder.openWithStream
  split
  · exact inv_close _
  · split
    · exact inv_close _
    · exact inv_openWithCodec m st _ h0

theorem inv_openWithContainer (m : AMedia) (s : AState) (h0 : s.queued = 0) :
    Inv (AudioDecoder.openWithContainer m s).2 := by
  unfold AudioDecoder.openWithContainer
  split
  · exact inv_close _
  · split
    · exact inv_close _
    · split
      · exact inv_close _
      · exact inv_openWithStream m _ _ h0

theorem inv_open (m : AMedia) (s0 : AState) : Inv (AudioDecoder.Open m s0).2 := by
  unfold AudioDecoder.Open
  split
  · exact inv_close _
  · exact inv_openWithContainer m _ (by rw [close_eq]; rfl)

/-- The drain step keeps every field but the source state and the queued
count. -/
theorem selectSeek_queued (m : AMedia) (idx : Int) (tb t : ℚ) (s : AState) :
    (AudioDecoder.selectSeek m idx tb t s).queued = s.queued := by
  unfold AudioDecoder.selectSeek
  split
  · split <;> rfl
  · rfl

theorem selectSeek_hasAudio (m : AMedia) (idx : Int) (tb t : ℚ) (s : AState) :
    (AudioDecoder.selectSeek m idx tb t s).hasAudio = s.hasAudio := by
  unfold AudioDecoder.selectSeek
  split
  · split <;> rfl
  · rfl

theorem inv_seek (m : AMedia) (s : AState) (t : ℚ) (h : Inv s) :
    Inv (AudioDecoder.Seek m s t).2 := by
  unfold AudioDecoder.Seek
  split
  · exact ⟨h.1, h.2.1, h.2.2⟩
  · rename_i hg
    have hfo : s.formatOpen = true := by
      rcases not_or.mp hg with ⟨h1, _⟩
      simpa using h1
    have hfa : s.hasAudio = true := h.2.1 hfo
    unfold AudioDecoder.seekLocked
    split
    · exact ⟨Nat.zero_le 4, fun _ => hfa, fun _ => rfl⟩
    · exact inv_selectResume _ _ (inv_queueBuffers m _ rfl hfa)

theorem inv_select (m : AMedia) (s : AState) (idx : Int) (t : ℚ) (h : Inv s) :
    Inv (AudioDecoder.SelectAudioStream m s idx t).2 := by
  unfold AudioDecoder.SelectAudioStream
  split
  · exact h
  · rename_i hfo0
    have hfo : s.formatOpen = true := by simpa using hfo0
    have hfa : s.hasAudio = true := h.2.1 hfo
    split
    · exact h
    · split
      · exact h
      · split
        · exact h
        · split
          · exact h
          · have hdr : AudioDecoder.drainIfAudio
                { s with lockCount := s.lockCount + 1 } =
                { s with lockCount := s.lockCount + 1
                         sourceState := ALSourceState.stopped, queued := 0 } := by
              unfold AudioDecoder.drainIfAudio
              rw [if_pos (show ({ s with lockCount := s.lockCount + 1 } :
                AState).hasAudio = true from hfa)]
            unfold AudioDecoder.selectRebuild
            split
            · refine ⟨?_, fun _ => ?_, fun _ => ?_⟩ <;> rw [hdr]
              · exact Nat.zero_le 4
              · exact hfa
              · rfl
            · split
              · refine ⟨?_, fun _ => ?_, fun _ => ?_⟩ <;> rw [hdr]
                · exact Nat.zero_le 4
                · exact hfa
                · rfl
              · split
                · refine ⟨?_, fun _ => ?_, fun _ => ?_⟩ <;> rw [hdr]
                  · exact Nat.zero_le 4
                  · exact hfa
                  · rfl
                · refine inv_selectResume _ _ (inv_queueBuffers m _ ?_ ?_)
                  · rw [selectSeek_queued, hdr]; rfl
                  · rw [selectSeek_hasAudio, hdr]; exact hfa

theorem updateRestart_queued (obs : AudioDecoder.ALObs) (s : AState) :
    (AudioDecoder.updateRestart obs s).queued = s.queued := by
  unfold AudioDecoder.updateRestart
  split
  · split <;> rfl
  · rfl

theorem updateRestart_hasAudio (obs : AudioDecoder.ALObs) (s : AState) :
    (AudioDecoder.updateRestart obs s).hasAudio = s.hasAudio := by
  unfold AudioDecoder.updateRestart
  split
  · split <;> rfl
  · rfl

theorem inv_update (m : AMedia) (obs : AudioDecoder.ALObs) (s : AState)
    (h : Inv s) : Inv (AudioDecoder.Update m obs s) := by
  unfold AudioDecoder.Update
  split
  · exact h
  · rename_i hcond
    obtain ⟨h1, _⟩ := not_or.mp hcond
    have hfa : s.hasAudio = true := by simpa using h1
    have hTq : (AudioDecoder.updateLoop m obs.processed
        { s with lockCount := s.lockCount + 1 }).queued ≤ max s.queued 1 := by
      have hb := updateLoop_queued_le m obs.processed
        { s with lockCount := s.lockCount + 1 }
      simpa using hb
    have hTha : (AudioDecoder.updateLoop m obs.processed
        { s with lockCount := s.lockCount + 1 }).hasAudio = s.hasAudio := by
      rw [updateLoop_shape]
    refine ⟨?_, fun _ => ?_, fun hf => ?_⟩
    · rw [updateRestart_queued]
      have hm : max s.queued 1 ≤ 4 := max_le h.1 (by omega)
      exact le_trans hTq hm
    · rw [updateRestart_hasAudio, hTha]; exact hfa
    · rw [updateRestart_hasAudio, hTha] at hf
      exact absurd hf (by simp [hfa])

/-- The reachable states of an `AudioDecoder`: the freshly constructed state
closed under every public operation, on arbitrary media and arbitrary
device observations. -/
inductive Reachable : AState → Prop where
  | init : Reachable AudioDecoder.initState
  | openFile (m : AMedia) {s : AState} :
      Reachable s → Reachable (AudioDecoder.Open m s).2
  | close {s : AState} : Reachable s → Reachable (AudioDecoder.Close s)
  | play {s : AState} : Reachable s → Reachable (AudioDecoder.Play s)
  | pause {s : AState} : Reachable s → Reachable (AudioDecoder.Pause s)
  | stop {s : AState} : Reachable s → Reachable (AudioDecoder.Stop s)
  | setVolume (v : ℚ) {s : AState} :
      Reachable s → Reachable (AudioDecoder.SetVolume s v)
  | seek (m : AMedia) (t : ℚ) {s : AState} :
      Reachable s → Reachable (AudioDecoder.Seek m s t).2
  | select (m : AMedia) (idx : Int) (t : ℚ) {s : AState} :
      Reachable s → Reachable (AudioDecoder.SelectAudioStream m s idx t).2
  | update (m : AMedia) (obs : AudioDecoder.ALObs) {s : AState} :
      Reachable s → Reachable (AudioDecoder.Update m obs s)

theorem inv_reachable (s : AState) (h : Reachable s) : Inv s := by
  induction h with
  | init => exact inv_fresh 1 0
  | openFile m _ _ => exact inv_open m _
  | close _ _ => exact inv_close _
  | play _ ih => exact inv_play _ ih
  | pause _ ih => exact inv_pause _ ih
  | stop _ ih => exact inv_stop _ ih
  | setVolume v _ ih => exact inv_setVolume _ v ih
  | seek m t _ ih => exact inv_seek m _ t ih
  | select m idx t _ ih => exact inv_select m _ idx t ih
  | update m obs _ ih => exact inv_update m obs _ ih

/-- **C4** In every reachable state of the audio engine, at most
`NUM_BUFFERS = 4` playback buffers are queued on the output source: `Open`
pre-fills at most the ring, and `Seek`, `SelectAudioStream` and `Update`
unqueue before re-queuing, so the queued count never exceeds the ring
size. -/
theorem audio_queue_bound (s : AState) (h : Reachable s) :
    s.queued ≤ AudioDecoder.NUM_BUFFERS :=
  (inv_reachable s h).1

/-- Witness for C4: the state reached by `Open` on `mSwitch` followed by
`Play` has at most four queued buffers. -/
theorem audio_queue_bound_witness : aPlaying.queued ≤ AudioDecoder.NUM_BUFFERS :=
  audio_queue_bound aPlaying
    (Reachable.play (Reachable.openFile mSwitch Reachable.init))

end TVKMedia
